import Mathlib

/-
  Verification development for the WireGuard receive path (src/receive.c,
  snapshot 0.0.20161218).  The functions of receive.c are shallowly embedded
  as Lean functions over explicit inputs; calls to collaborators that are not
  part of receive.c (noise handshake consumption, cookie MAC validation,
  socket endpoint extraction, the routing table, netif_rx, ...) are taken as
  abstract boolean/enumerated inputs, and the observable side effects of the
  code (collaborator calls, counter increments, timer notifications, frees,
  reference releases) are recorded as an ordered trace of actions.
-/

namespace WG

/-- Wire message discriminants, per enum message_type as consumed by receive.c. -/
inductive MessageType where
  | invalid
  | handshakeInitiation
  | handshakeResponse
  | handshakeCookie
  | data
  deriving DecidableEq, Repr

/-- Result of cookie_validate_packet, per enum cookie_mac_state. -/
inductive CookieMacState where
  | invalidMac
  | validMacButNoCookie
  | validMacWithCookie
  deriving DecidableEq, Repr

/-- Observable actions (collaborator calls and state effects) of the receive path. -/
inductive Act where
  | consumeCookieMsg
  | sendCookieReply
  | consumeInitiation
  | consumeResponse
  | setEndpoint
  | sendHandshakeResponse
  | timersEphemeralKeyCreated
  | timersHandshakeComplete
  | clearSentLastminute
  | flushQueue
  | sendKeepalive
  | rxStats
  | timersAnyAuthReceived
  | timersAnyAuthTraversal
  | peerPut
  | warn
  | freeSkb
  | sendQueue
  | queueHandshakeInitiation
  | timersDataReceived
  | routingLookup
  | peerPutRouted
  | netifRx
  | incRxErrors
  | incRxFrameErrors
  | incRxLengthErrors
  | incRxDropped
  | ipEcnSetCe
  | enqueueHandshake
  | queueWork
  | setDs
  | consumeData
  deriving DecidableEq, Repr

/-- Number of occurrences of an action in a trace. -/
def countAct (a : Act) : List Act → Nat
  | [] => 0
  | b :: l => (if b = a then 1 else 0) + countAct a l

/-- Peer state relevant to the receive path. -/
structure Peer where
  sent_lastminute_handshake : Bool
  deriving DecidableEq, Repr

/-- Keypair state read by keep_key_fresh. -/
structure Keypair where
  sending_is_valid : Bool
  i_am_the_initiator : Bool
  birthdate : Nat
  deriving DecidableEq, Repr

/-- Fields of an inbound sk_buff consumed by skb_data_offset: total length,
the IP version nibble, the byte offset of the UDP header from skb data, and
the value of the UDP length field. -/
structure Skb where
  len : Nat
  ip_version : Nat
  udp_offset : Nat
  udp_len : Nat
  deriving DecidableEq, Repr

/-- sizeof(struct iphdr). -/
def sizeof_iphdr : Nat := 20

/-- sizeof(struct ipv6hdr). -/
def sizeof_ipv6hdr : Nat := 40

/-- sizeof(struct udphdr). -/
def sizeof_udphdr : Nat := 8

/-- sizeof(struct message_header): one little-endian 32-bit type word. -/
def sizeof_message_header : Nat := 4

/-- Largest value representable in 16 bits. -/
def U16_MAX : Nat := 65535

/-- Embedding of skb_data_offset (receive.c lines 33-71).  Returns the payload
offset and payload length, or none for the -EINVAL early returns.  The
pskb_may_pull call is modelled as succeeding exactly when the requested bytes
are within the total length. -/
def skb_data_offset (skb : Skb) : Option (Nat × Nat) :=
  if skb.len < sizeof_iphdr then none
  else if skb.ip_version ≠ 4 ∧ skb.ip_version ≠ 6 then none
  else if skb.ip_version = 6 ∧ skb.len < sizeof_ipv6hdr then none
  else if U16_MAX < skb.udp_offset then none
  else if skb.len < skb.udp_offset + sizeof_udphdr then none
  else if skb.udp_len < sizeof_udphdr then none
  else if skb.len - skb.udp_offset < skb.udp_len then none
  else if skb.len < skb.udp_offset + sizeof_udphdr + sizeof_message_header then none
  else some (skb.udp_offset + sizeof_udphdr, skb.udp_len - sizeof_udphdr)

/-- Embedding of the under_load computation (receive.c line 89):
skb_queue_len >= MAX_QUEUED_INCOMING_HANDSHAKES / 2, with the queue length and
the capacity constant as explicit arguments. -/
def under_load (queueLen cap : Nat) : Bool :=
  decide (cap / 2 ≤ queueLen)

/-- Embedding of update_latest_addr (receive.c lines 26-31): the endpoint is
recorded only when socket_endpoint_from_skb succeeds, which is the abstract
input endpointOk. -/
def update_latest_addr (endpointOk : Bool) : List Act :=
  if endpointOk then [Act.setEndpoint] else []

/-- Modelled from the spec: packet_send_keepalive is not part of receive.c;
per the spec (and the comment at receive.c lines 133-136) it flushes the
queued data packets when there are any, and otherwise sends one empty
keepalive.  queueEmpty tells which case applies. -/
def packet_send_keepalive (queueEmpty : Bool) : List Act :=
  if queueEmpty then [Act.sendKeepalive] else [Act.flushQueue]

/-- Common tail of receive_handshake_packet for a resolved peer
(receive.c lines 147-150). -/
def handshake_tail : List Act :=
  [Act.rxStats, Act.timersAnyAuthReceived, Act.timersAnyAuthTraversal, Act.peerPut]

/-- Embedding of the switch statement of receive_handshake_packet
(receive.c lines 100-143), given the computed packet_needs_cookie flag and
the abstract outcomes of the collaborator calls: endpointOk for
socket_endpoint_from_skb, consumeInitOk / consumeRespOk for the noise
consumption, beginSessionOk for noise_handshake_begin_session, queueEmpty
for the internal choice of packet_send_keepalive. -/
def handshake_switch (msgType : MessageType) (packetNeedsCookie endpointOk consumeInitOk consumeRespOk beginSessionOk queueEmpty : Bool) : List Act :=
  match msgType with
  | MessageType.handshakeInitiation =>
      if packetNeedsCookie then [Act.sendCookieReply]
      else if consumeInitOk then
        Act.consumeInitiation ::
          (update_latest_addr endpointOk ++ [Act.sendHandshakeResponse] ++ handshake_tail)
      else [Act.consumeInitiation]
  | MessageType.handshakeResponse =>
      if packetNeedsCookie then [Act.sendCookieReply]
      else if consumeRespOk then
        Act.consumeResponse ::
          (update_latest_addr endpointOk ++
            (if beginSessionOk then
              [Act.timersEphemeralKeyCreated, Act.timersHandshakeComplete,
               Act.clearSentLastminute] ++ packet_send_keepalive queueEmpty
             else []) ++ handshake_tail)
      else [Act.consumeResponse]
  | _ => [Act.warn]

/-- Embedding of receive_handshake_packet (receive.c lines 73-151).  The
message type is the result of message_determine_type; the cookie MAC state is
the result of cookie_validate_packet at the computed under_load value. -/
def receive_handshake_packet (msgType : MessageType) (queueLen cap : Nat) (macState : CookieMacState) (endpointOk consumeInitOk consumeRespOk beginSessionOk queueEmpty : Bool) : List Act :=
  if msgType = MessageType.handshakeCookie then [Act.consumeCookieMsg]
  else if (under_load queueLen cap = true ∧ macState = CookieMacState.validMacWithCookie)
        ∨ (under_load queueLen cap = false ∧ macState = CookieMacState.validMacButNoCookie) then
    handshake_switch msgType false endpointOk consumeInitOk consumeRespOk beginSessionOk queueEmpty
  else if under_load queueLen cap = true ∧ macState = CookieMacState.validMacButNoCookie then
    handshake_switch msgType true endpointOk consumeInitOk consumeRespOk beginSessionOk queueEmpty
  else []

/-- A handshake message proceeds to handshake processing when one of the two
noise consumption collaborators is invoked on it. -/
def proceeds_to_handshake (t : List Act) : Prop :=
  Act.consumeInitiation ∈ t ∨ Act.consumeResponse ∈ t

instance (t : List Act) : Decidable (proceeds_to_handshake t) := by
  unfold proceeds_to_handshake
  infer_instance

/-- Embedding of keep_key_fresh (receive.c lines 171-189).  The current
keypair, the clock and the timeout constants are explicit arguments.
time_is_before_eq_jiffies64 x holds when x is at or before now.  This
predicate is the send condition computed at receive.c lines 179-182. -/
def keep_key_fresh_send (keypair : Option Keypair) (now REJECT_AFTER_TIME KEEPALIVE_TIMEOUT REKEY_TIMEOUT : Nat) : Bool :=
  match keypair with
  | some kp =>
      kp.sending_is_valid && kp.i_am_the_initiator &&
        decide (kp.birthdate + REJECT_AFTER_TIME - KEEPALIVE_TIMEOUT - REKEY_TIMEOUT ≤ now)
  | none => false

/-- Embedding of keep_key_fresh (receive.c lines 171-189): an early return
when the one-shot flag is already set, otherwise the flag is set and one
handshake initiation is enqueued exactly when the send condition holds.
Returns the updated peer together with the trace. -/
def keep_key_fresh (peer : Peer) (keypair : Option Keypair) (now REJECT_AFTER_TIME KEEPALIVE_TIMEOUT REKEY_TIMEOUT : Nat) : Peer × List Act :=
  if peer.sent_lastminute_handshake then (peer, [])
  else if keep_key_fresh_send keypair now REJECT_AFTER_TIME KEEPALIVE_TIMEOUT REKEY_TIMEOUT then
    ({ sent_lastminute_handshake := true }, [Act.queueHandshakeInitiation])
  else (peer, [])

/-- Repeated invocations of keep_key_fresh on a peer, with the keypair and
clock observed at each invocation; returns the final peer and the total number
of handshake initiations enqueued. -/
def keep_key_fresh_run (peer : Peer) (steps : List (Option Keypair × Nat)) (REJECT_AFTER_TIME KEEPALIVE_TIMEOUT REKEY_TIMEOUT : Nat) : Peer × Nat :=
  match steps with
  | [] => (peer, 0)
  | (kp, now) :: rest =>
      let r := keep_key_fresh peer kp now REJECT_AFTER_TIME KEEPALIVE_TIMEOUT REKEY_TIMEOUT
      let rr := keep_key_fresh_run r.1 rest REJECT_AFTER_TIME KEEPALIVE_TIMEOUT REKEY_TIMEOUT
      (rr.1, countAct Act.queueHandshakeInitiation r.2 + rr.2)

/-- Embedding of the part of receive_data_packet after the IP protocol was
classified (receive.c lines 249-268): data-received timer, routing table
lookup with release of the extra reference, then either the spoofed-source
drop or the netif_rx delivery. -/
def routed_delivery (routedSame netifRxOk : Bool) : List Act :=
  Act.timersDataReceived :: Act.routingLookup :: Act.peerPutRouted ::
    (if routedSame = false then [Act.incRxErrors, Act.incRxFrameErrors, Act.freeSkb]
     else if netifRxOk then [Act.netifRx, Act.rxStats]
     else [Act.netifRx, Act.incRxDropped])

/-- The keepalive and length classification of receive_data_packet
(receive.c lines 219-268): the zero-length keepalive branch, the
missing-IP-version branch, the IPv4 / IPv6 classification with tunnel ECN
decapsulation and the subsequent routed delivery, or the
neither-IPv4-nor-IPv6 drop. -/
def receive_data_mid (len : Nat) (canPull1 : Bool) (ipVersion : Nat) (dsCe routedSame netifRxOk : Bool) : List Act :=
  if len = 0 then [Act.freeSkb]
  else if canPull1 = false then [Act.incRxErrors, Act.incRxLengthErrors, Act.freeSkb]
  else if sizeof_iphdr ≤ len ∧ ipVersion = 4 then
    (if dsCe then [Act.ipEcnSetCe] else []) ++ routed_delivery routedSame netifRxOk
  else if sizeof_ipv6hdr ≤ len ∧ ipVersion = 6 then
    (if dsCe then [Act.ipEcnSetCe] else []) ++ routed_delivery routedSame netifRxOk
  else [Act.incRxErrors, Act.incRxLengthErrors, Act.freeSkb]

/-- Embedding of receive_data_packet (receive.c lines 196-276).  err is the
decryption result; peerPresent / endpointPresent model the null checks; len is
the decrypted payload length; canPull1 models pskb_may_pull(skb, 1); dsCe
models INET_ECN_is_ce on the saved ds field; routedSame tells whether
routing_table_lookup_src returned the decrypting peer; netifRxOk models
netif_rx returning NET_RX_SUCCESS.  The goto structure of the source is
rendered as a branch-dependent middle segment between the common head and the
common continue_processing tail. -/
def receive_data_packet (err : Int) (peerPresent endpointPresent : Bool) (peer : Peer) (usedNewKey : Bool) (keypair : Option Keypair) (now REJECT_AFTER_TIME KEEPALIVE_TIMEOUT REKEY_TIMEOUT : Nat) (len : Nat) (canPull1 : Bool) (ipVersion : Nat) (dsCe routedSame netifRxOk : Bool) : List Act :=
  if err < 0 ∨ peerPresent = false ∨ endpointPresent = false then [Act.freeSkb]
  else
    let newKeyActs : List Act :=
      if usedNewKey then [Act.clearSentLastminute, Act.sendQueue] else []
    let peer1 : Peer :=
      if usedNewKey then { sent_lastminute_handshake := false } else peer
    let freshActs : List Act :=
      (keep_key_fresh peer1 keypair now REJECT_AFTER_TIME KEEPALIVE_TIMEOUT REKEY_TIMEOUT).2
    Act.setEndpoint ::
      (newKeyActs ++ freshActs ++ receive_data_mid len canPull1 ipVersion dsCe routedSame netifRxOk ++
        [Act.timersAnyAuthReceived, Act.timersAnyAuthTraversal, Act.peerPut])

/-- Embedding of packet_receive (receive.c lines 278-312).  The message type
is the result of message_determine_type on the payload; linearizeOk models
skb_linearize succeeding.  Returns the trace together with the handshake queue
length after the call. -/
def packet_receive (skb : Skb) (msgType : MessageType) (queueLen cap : Nat) (linearizeOk : Bool) : List Act × Nat :=
  match skb_data_offset skb with
  | none => ([Act.freeSkb], queueLen)
  | some _ =>
    match msgType with
    | MessageType.handshakeInitiation
    | MessageType.handshakeResponse
    | MessageType.handshakeCookie =>
        if cap < queueLen then ([Act.freeSkb], queueLen)
        else if linearizeOk = false then ([Act.freeSkb], queueLen)
        else ([Act.enqueueHandshake, Act.queueWork], queueLen + 1)
    | MessageType.data => ([Act.setDs, Act.consumeData], queueLen)
    | MessageType.invalid => ([Act.freeSkb], queueLen)

theorem countAct_append (a : Act) (l1 l2 : List Act) :
    countAct a (l1 ++ l2) = countAct a l1 + countAct a l2 := by
  induction l1 with
  | nil => simp [countAct]
  | cons b l ih => simp [countAct, ih]; omega

theorem keep_key_fresh_acts (p : Peer) (kp : Option Keypair) (now A B C : Nat) :
    (keep_key_fresh p kp now A B C).2 = [] ∨
    ((keep_key_fresh p kp now A B C).2 = [Act.queueHandshakeInitiation] ∧
      (keep_key_fresh p kp now A B C).1.sent_lastminute_handshake = true) := by
  unfold keep_key_fresh
  split_ifs <;> simp

/-- C1: for every inbound handshake initiation or response, when under_load
is false a VALID_MAC_BUT_NO_COOKIE message proceeds to handshake processing;
when under_load is true the same message does not proceed and exactly one
cookie reply is emitted; when under_load is true a VALID_MAC_WITH_COOKIE
message proceeds; every other combination is dropped with an empty trace. -/
theorem receive_handshake_admission (msgType : MessageType) (queueLen cap : Nat) (macState : CookieMacState) (endpointOk cI cR bS qE : Bool)
    (hmt : msgType = MessageType.handshakeInitiation ∨ msgType = MessageType.handshakeResponse) :
    (under_load queueLen cap = false → macState = CookieMacState.validMacButNoCookie →
      proceeds_to_handshake (receive_handshake_packet msgType queueLen cap macState endpointOk cI cR bS qE))
    ∧ (under_load queueLen cap = true → macState = CookieMacState.validMacButNoCookie →
      ¬ proceeds_to_handshake (receive_handshake_packet msgType queueLen cap macState endpointOk cI cR bS qE)
      ∧ countAct Act.sendCookieReply (receive_handshake_packet msgType queueLen cap macState endpointOk cI cR bS qE) = 1)
    ∧ (under_load queueLen cap = true → macState = CookieMacState.validMacWithCookie →
      proceeds_to_handshake (receive_handshake_packet msgType queueLen cap macState endpointOk cI cR bS qE))
    ∧ ((macState = CookieMacState.invalidMac
        ∨ (under_load queueLen cap = false ∧ macState = CookieMacState.validMacWithCookie)) →
      receive_handshake_packet msgType queueLen cap macState endpointOk cI cR bS qE = []) := by
  rcases hmt with h | h <;> subst h <;> refine ⟨?_, ?_, ?_, ?_⟩
  all_goals
    first
    | (intro hU hM
       subst hM
       cases cI <;> cases cR <;>
         simp [receive_handshake_packet, hU, handshake_switch, proceeds_to_handshake,
           update_latest_addr, handshake_tail, countAct])
    | (intro hD
       rcases hD with hM | ⟨hU, hM⟩ <;> subst hM <;>
         simp_all [receive_handshake_packet])

/-- Witness for C1: a valid-MAC no-cookie initiation with an empty queue
proceeds to handshake processing. -/
theorem receive_handshake_admission_witness :
    proceeds_to_handshake (receive_handshake_packet MessageType.handshakeInitiation 0 4096 CookieMacState.validMacButNoCookie true true true true true) :=
  (receive_handshake_admission MessageType.handshakeInitiation 0 4096
    CookieMacState.validMacButNoCookie true true true true true (Or.inl rfl)).1 (by decide) rfl

/-- C6: an initiation that passes the cookie admission check emits exactly one
handshake response when the noise consumption succeeds, with the latest
endpoint recorded before the response when endpoint extraction succeeds, and
emits nothing (only the failed consumption call) when consumption fails. -/
theorem handshake_initiation_emission (queueLen cap : Nat) (macState : CookieMacState) (endpointOk cI cR bS qE : Bool)
    (hadm : (under_load queueLen cap = true ∧ macState = CookieMacState.validMacWithCookie)
          ∨ (under_load queueLen cap = false ∧ macState = CookieMacState.validMacButNoCookie)) :
    (cI = true →
      countAct Act.sendHandshakeResponse (receive_handshake_packet MessageType.handshakeInitiation queueLen cap macState endpointOk cI cR bS qE) = 1
      ∧ (endpointOk = true →
          ∃ l1 l2, receive_handshake_packet MessageType.handshakeInitiation queueLen cap macState endpointOk cI cR bS qE
              = l1 ++ Act.sendHandshakeResponse :: l2
            ∧ Act.setEndpoint ∈ l1 ∧ Act.setEndpoint ∉ l2))
    ∧ (cI = false →
        receive_handshake_packet MessageType.handshakeInitiation queueLen cap macState endpointOk cI cR bS qE
          = [Act.consumeInitiation]) := by
  have ht : receive_handshake_packet MessageType.handshakeInitiation queueLen cap macState endpointOk cI cR bS qE
      = handshake_switch MessageType.handshakeInitiation false endpointOk cI cR bS qE := by
    simp [receive_handshake_packet, hadm]
  rw [ht]
  constructor
  · intro hcI
    subst hcI
    constructor
    · cases endpointOk <;>
        simp [handshake_switch, update_latest_addr, handshake_tail, countAct]
    · intro hep
      subst hep
      refine ⟨[Act.consumeInitiation, Act.setEndpoint], handshake_tail, ?_, ?_, ?_⟩
      · simp [handshake_switch, update_latest_addr, handshake_tail]
      · simp
      · simp [handshake_tail]
  · intro hcI
    subst hcI
    simp [handshake_switch]

/-- Witness for C6: a successful initiation with admission passed emits one
handshake response. -/
theorem handshake_initiation_emission_witness :
    countAct Act.sendHandshakeResponse (receive_handshake_packet MessageType.handshakeInitiation 0 4096 CookieMacState.validMacButNoCookie true true true true true) = 1 :=
  ((handshake_initiation_emission 0 4096 CookieMacState.validMacButNoCookie true true true true true
    (Or.inr ⟨by decide, rfl⟩)).1 rfl).1

/-- C7: a handshake response that passes admission, is consumed for a peer,
and whose session activation succeeds clears sent_lastminute_handshake,
notifies the ephemeral-key-created and handshake-complete timers, and performs
exactly one of flushing the queued packets or sending an empty keepalive. -/
theorem handshake_response_session_effects (queueLen cap : Nat) (macState : CookieMacState) (endpointOk cI cR bS qE : Bool)
    (hadm : (under_load queueLen cap = true ∧ macState = CookieMacState.validMacWithCookie)
          ∨ (under_load queueLen cap = false ∧ macState = CookieMacState.validMacButNoCookie))
    (hcR : cR = true) (hbS : bS = true) :
    Act.clearSentLastminute ∈ receive_handshake_packet MessageType.handshakeResponse queueLen cap macState endpointOk cI cR bS qE
    ∧ Act.timersEphemeralKeyCreated ∈ receive_handshake_packet MessageType.handshakeResponse queueLen cap macState endpointOk cI cR bS qE
    ∧ Act.timersHandshakeComplete ∈ receive_handshake_packet MessageType.handshakeResponse queueLen cap macState endpointOk cI cR bS qE
    ∧ countAct Act.flushQueue (receive_handshake_packet MessageType.handshakeResponse queueLen cap macState endpointOk cI cR bS qE)
      + countAct Act.sendKeepalive (receive_handshake_packet MessageType.handshakeResponse queueLen cap macState endpointOk cI cR bS qE) = 1 := by
  have ht : receive_handshake_packet MessageType.handshakeResponse queueLen cap macState endpointOk cI cR bS qE
      = handshake_switch MessageType.handshakeResponse false endpointOk cI cR bS qE := by
    simp [receive_handshake_packet, hadm]
  rw [ht]
  subst hcR
  subst hbS
  cases qE <;> cases endpointOk <;>
    simp [handshake_switch, update_latest_addr, packet_send_keepalive, handshake_tail, countAct]

/-- Witness for C7: a successful response under no load with session
activation flushes or sends exactly one keepalive. -/
theorem handshake_response_session_effects_witness :
    countAct Act.flushQueue (receive_handshake_packet MessageType.handshakeResponse 0 4096 CookieMacState.validMacButNoCookie true true true true true)
    + countAct Act.sendKeepalive (receive_handshake_packet MessageType.handshakeResponse 0 4096 CookieMacState.validMacButNoCookie true true true true true) = 1 :=
  (handshake_response_session_effects 0 4096 CookieMacState.validMacButNoCookie true true true true true
    (Or.inr ⟨by decide, rfl⟩) rfl rfl).2.2.2

theorem keep_key_fresh_flag_true (p : Peer) (kp : Option Keypair) (now A B C : Nat)
    (h : p.sent_lastminute_handshake = true) :
    keep_key_fresh p kp now A B C = (p, []) := by
  simp [keep_key_fresh, h]

theorem keep_key_fresh_run_flag_true (steps : List (Option Keypair × Nat)) (A B C : Nat) (p : Peer)
    (h : p.sent_lastminute_handshake = true) :
    keep_key_fresh_run p steps A B C = (p, 0) := by
  induction steps with
  | nil => simp [keep_key_fresh_run]
  | cons s rest ih =>
      obtain ⟨kp, now⟩ := s
      simp [keep_key_fresh_run, keep_key_fresh_flag_true p kp now A B C h, ih, countAct]

theorem keep_key_fresh_run_le_one (steps : List (Option Keypair × Nat)) (A B C : Nat) (p : Peer) :
    (keep_key_fresh_run p steps A B C).2 ≤ 1 := by
  induction steps generalizing p with
  | nil => simp [keep_key_fresh_run]
  | cons s rest ih =>
      obtain ⟨kp, now⟩ := s
      by_cases hp : p.sent_lastminute_handshake = true
      · rw [keep_key_fresh_run_flag_true ((kp, now) :: rest) A B C p hp]
        simp
      · simp only [keep_key_fresh_run]
        by_cases hs : keep_key_fresh_send kp now A B C = true
        · have h1 : keep_key_fresh p kp now A B C
              = ({ sent_lastminute_handshake := true }, [Act.queueHandshakeInitiation]) := by
            simp [keep_key_fresh, hp, hs]
          have h2 := keep_key_fresh_run_flag_true rest A B C ⟨true⟩ rfl
          simp [h1, h2, countAct]
        · have h1 : keep_key_fresh p kp now A B C = (p, []) := by
            simp [keep_key_fresh, hp, hs]
          simp only [h1, countAct]
          simpa using ih p

/-- C8: over any sequence of invocations, keep_key_fresh enqueues at most one
handshake initiation; once the one-shot flag is set no invocation enqueues
anything; and a single invocation with the flag clear, a valid
initiator-owned current keypair, and age strictly beyond
REJECT_AFTER_TIME - KEEPALIVE_TIMEOUT - REKEY_TIMEOUT enqueues exactly one
initiation and sets the flag. -/
theorem keep_key_fresh_one_per_epoch (steps : List (Option Keypair × Nat)) (REJECT_AFTER_TIME KEEPALIVE_TIMEOUT REKEY_TIMEOUT : Nat) (p : Peer) :
    (keep_key_fresh_run p steps REJECT_AFTER_TIME KEEPALIVE_TIMEOUT REKEY_TIMEOUT).2 ≤ 1
    ∧ (p.sent_lastminute_handshake = true →
        (keep_key_fresh_run p steps REJECT_AFTER_TIME KEEPALIVE_TIMEOUT REKEY_TIMEOUT).2 = 0)
    ∧ (∀ kp now, p.sent_lastminute_handshake = false →
        kp.sending_is_valid = true → kp.i_am_the_initiator = true →
        kp.birthdate + REJECT_AFTER_TIME - KEEPALIVE_TIMEOUT - REKEY_TIMEOUT < now →
        (keep_key_fresh p (some kp) now REJECT_AFTER_TIME KEEPALIVE_TIMEOUT REKEY_TIMEOUT).2
            = [Act.queueHandshakeInitiation]
        ∧ (keep_key_fresh p (some kp) now REJECT_AFTER_TIME KEEPALIVE_TIMEOUT REKEY_TIMEOUT).1.sent_lastminute_handshake = true) := by
  refine ⟨keep_key_fresh_run_le_one steps _ _ _ p, ?_, ?_⟩
  · intro h
    rw [keep_key_fresh_run_flag_true steps _ _ _ p h]
  · intro kp now hp hv hi ht
    have hs : keep_key_fresh_send (some kp) now REJECT_AFTER_TIME KEEPALIVE_TIMEOUT REKEY_TIMEOUT = true := by
      simp [keep_key_fresh_send, hv, hi]
      omega
    constructor <;> simp [keep_key_fresh, hp, hs]

/-- Witness for C8: a fresh peer with a stale initiator keypair enqueues the
initiation once. -/
theorem keep_key_fresh_one_per_epoch_witness :
    (keep_key_fresh ⟨false⟩ (some ⟨true, true, 0⟩) 200 180 10 5).2 = [Act.queueHandshakeInitiation] :=
  ((keep_key_fresh_one_per_epoch [] 180 10 5 ⟨false⟩).2.2 ⟨true, true, 0⟩ 200 rfl rfl rfl
    (by decide)).1

/-- C3 counterexample: with the queue length exactly at the capacity constant
(4096), a structurally valid handshake initiation is still enqueued, bringing
the length to 4097, strictly above the claimed bound. -/
theorem handshake_queue_capacity_counterexample :
    (packet_receive ⟨100, 4, 20, 50⟩ MessageType.handshakeInitiation 4096 4096 true).1
      = [Act.enqueueHandshake, Act.queueWork]
    ∧ (packet_receive ⟨100, 4, 20, 50⟩ MessageType.handshakeInitiation 4096 4096 true).2 = 4097
    ∧ 4096 < 4097 := by
  decide

/-- C3 (amended): the enqueue check drops only when the queue length is
strictly above the capacity constant, so the handshake queue length never
exceeds capacity + 1, and once strictly above capacity an enqueue attempt
leaves the queue unchanged and frees the datagram without blocking. -/
theorem handshake_queue_bound (skb : Skb) (msgType : MessageType) (queueLen cap : Nat) (linearizeOk : Bool) :
    (queueLen ≤ cap + 1 → (packet_receive skb msgType queueLen cap linearizeOk).2 ≤ cap + 1)
    ∧ (cap < queueLen →
        (packet_receive skb msgType queueLen cap linearizeOk).2 = queueLen
        ∧ ((msgType = MessageType.handshakeInitiation ∨ msgType = MessageType.handshakeResponse
            ∨ msgType = MessageType.handshakeCookie) →
           skb_data_offset skb ≠ none →
           (packet_receive skb msgType queueLen cap linearizeOk).1 = [Act.freeSkb])) := by
  cases h : skb_data_offset skb with
  | none => simp [packet_receive, h]
  | some v =>
      cases msgType <;> simp [packet_receive, h] <;> split_ifs <;> simp_all

/-- Witness for C3: above capacity the attempt drops and the length is
unchanged. -/
theorem handshake_queue_bound_witness :
    (packet_receive ⟨100, 4, 20, 50⟩ MessageType.handshakeInitiation 4097 4096 true).2 = 4097
    ∧ (packet_receive ⟨100, 4, 20, 50⟩ MessageType.handshakeInitiation 4097 4096 true).1 = [Act.freeSkb] := by
  have h := (handshake_queue_bound ⟨100, 4, 20, 50⟩ MessageType.handshakeInitiation 4097 4096 true).2
    (by decide)
  exact ⟨h.1, h.2 (Or.inl rfl) (by decide)⟩

/-- C4 counterexample: at a queue length of exactly half the capacity
(2048 of 4096), the code computes under_load = true, while the claim
(strictly greater than capacity / 2) predicts false. -/
theorem under_load_strict_half_counterexample :
    under_load 2048 4096 = true ∧ ¬ (4096 / 2 < 2048) := by
  decide

/-- C4 (amended): the under_load condition computed for every handshake
message is true exactly when the pending-handshake queue length is at least
half the configured capacity (greater than or equal to cap / 2). -/
theorem under_load_iff_half_capacity (queueLen cap : Nat) :
    under_load queueLen cap = true ↔ cap / 2 ≤ queueLen := by
  simp [under_load]

/-- C5: the structural classifier rejects, and packet_receive then frees the
datagram without reaching the handshake queue or the data pipeline, whenever
the total length is below the minimum IP header size, or the UDP length field
is smaller than the UDP header size, or the UDP length field claims more bytes
than remain after the UDP header offset. -/
theorem skb_data_offset_rejects (skb : Skb) (msgType : MessageType) (queueLen cap : Nat) (linearizeOk : Bool)
    (h : skb.len < sizeof_iphdr ∨ skb.udp_len < sizeof_udphdr ∨ skb.len - skb.udp_offset < skb.udp_len) :
    skb_data_offset skb = none ∧
    packet_receive skb msgType queueLen cap linearizeOk = ([Act.freeSkb], queueLen) := by
  have hnone : skb_data_offset skb = none := by
    simp only [sizeof_iphdr, sizeof_udphdr] at h
    unfold skb_data_offset sizeof_iphdr sizeof_ipv6hdr sizeof_udphdr sizeof_message_header U16_MAX
    split_ifs <;> first | rfl | omega
  refine ⟨hnone, ?_⟩
  simp [packet_receive, hnone]

/-- Witness for C5 at a 10-byte datagram. -/
theorem skb_data_offset_rejects_witness :
    skb_data_offset ⟨10, 4, 0, 0⟩ = none ∧
    packet_receive ⟨10, 4, 0, 0⟩ MessageType.data 0 4096 true = ([Act.freeSkb], 0) :=
  skb_data_offset_rejects ⟨10, 4, 0, 0⟩ MessageType.data 0 4096 true (Or.inl (by decide))

theorem countAct_eq_zero_of_not_mem (a : Act) (l : List Act) (h : a ∉ l) : countAct a l = 0 := by
  induction l with
  | nil => rfl
  | cons b t ih =>
      simp only [List.mem_cons, not_or] at h
      simp [countAct, Ne.symm h.1, ih h.2]

theorem countAct_keep_key_fresh (a : Act) (ha : a ≠ Act.queueHandshakeInitiation) (p : Peer) (kp : Option Keypair) (now A B C : Nat) :
    countAct a (keep_key_fresh p kp now A B C).2 = 0 := by
  rcases keep_key_fresh_acts p kp now A B C with hf | ⟨hf, -⟩ <;>
    rw [hf] <;> simp [countAct, Ne.symm ha]

theorem receive_data_mid_no_liveness (len : Nat) (canPull1 : Bool) (ipVersion : Nat) (dsCe routedSame netifRxOk : Bool) :
    Act.timersAnyAuthReceived ∉ receive_data_mid len canPull1 ipVersion dsCe routedSame netifRxOk
    ∧ Act.timersAnyAuthTraversal ∉ receive_data_mid len canPull1 ipVersion dsCe routedSame netifRxOk
    ∧ Act.peerPut ∉ receive_data_mid len canPull1 ipVersion dsCe routedSame netifRxOk := by
  unfold receive_data_mid routed_delivery
  split_ifs <;> simp

/-- C9: every data-packet callback that reaches a resolved peer (decryption
error non-negative, peer and endpoint present) notifies the two liveness
timers and releases the peer reference exactly once, on every terminal
path. -/
theorem receive_data_packet_liveness_release (err : Int) (peerPresent endpointPresent : Bool) (peer : Peer) (usedNewKey : Bool) (keypair : Option Keypair) (now A B C : Nat) (len : Nat) (canPull1 : Bool) (ipVersion : Nat) (dsCe routedSame netifRxOk : Bool)
    (hm : 0 ≤ err) (hp : peerPresent = true) (he : endpointPresent = true) :
    countAct Act.timersAnyAuthReceived (receive_data_packet err peerPresent endpointPresent peer usedNewKey keypair now A B C len canPull1 ipVersion dsCe routedSame netifRxOk) = 1
    ∧ countAct Act.timersAnyAuthTraversal (receive_data_packet err peerPresent endpointPresent peer usedNewKey keypair now A B C len canPull1 ipVersion dsCe routedSame netifRxOk) = 1
    ∧ countAct Act.peerPut (receive_data_packet err peerPresent endpointPresent peer usedNewKey keypair now A B C len canPull1 ipVersion dsCe routedSame netifRxOk) = 1 := by
  have hg : ¬(err < 0 ∨ peerPresent = false ∨ endpointPresent = false) := by
    simp [hp, he]
    omega
  obtain ⟨m1, m2, m3⟩ := receive_data_mid_no_liveness len canPull1 ipVersion dsCe routedSame netifRxOk
  simp only [receive_data_packet]
  rw [if_neg hg]
  refine ⟨?_, ?_, ?_⟩
  · cases usedNewKey <;>
      simp [countAct, countAct_append,
        countAct_keep_key_fresh Act.timersAnyAuthReceived (by decide),
        countAct_eq_zero_of_not_mem Act.timersAnyAuthReceived _ m1]
  · cases usedNewKey <;>
      simp [countAct, countAct_append,
        countAct_keep_key_fresh Act.timersAnyAuthTraversal (by decide),
        countAct_eq_zero_of_not_mem Act.timersAnyAuthTraversal _ m2]
  · cases usedNewKey <;>
      simp [countAct, countAct_append,
        countAct_keep_key_fresh Act.peerPut (by decide),
        countAct_eq_zero_of_not_mem Act.peerPut _ m3]

/-- Witness for C9 at a keepalive packet from a resolved peer. -/
theorem receive_data_packet_liveness_release_witness :
    countAct Act.timersAnyAuthReceived (receive_data_packet 0 true true ⟨false⟩ false none 0 0 0 0 0 true 4 false true true) = 1 :=
  (receive_data_packet_liveness_release 0 true true ⟨false⟩ false none 0 0 0 0 0 true 4 false true true
    (le_refl 0) rfl rfl).1

/-- C2: a successfully decrypted non-empty data packet whose inner source
address resolves to a different peer than the decrypting one is dropped:
the skb is freed, rx_errors and rx_frame_errors are incremented, and
netif_rx is never called. -/
theorem receive_data_packet_spoofed_drop (err : Int) (peerPresent endpointPresent : Bool) (peer : Peer) (usedNewKey : Bool) (keypair : Option Keypair) (now A B C : Nat) (len : Nat) (canPull1 : Bool) (ipVersion : Nat) (dsCe routedSame netifRxOk : Bool)
    (hm : 0 ≤ err) (hp : peerPresent = true) (he : endpointPresent = true)
    (hlen : len ≠ 0) (hpull : canPull1 = true)
    (hver : (sizeof_iphdr ≤ len ∧ ipVersion = 4) ∨ (sizeof_ipv6hdr ≤ len ∧ ipVersion = 6))
    (hroute : routedSame = false) :
    Act.netifRx ∉ receive_data_packet err peerPresent endpointPresent peer usedNewKey keypair now A B C len canPull1 ipVersion dsCe routedSame netifRxOk
    ∧ Act.freeSkb ∈ receive_data_packet err peerPresent endpointPresent peer usedNewKey keypair now A B C len canPull1 ipVersion dsCe routedSame netifRxOk
    ∧ Act.incRxErrors ∈ receive_data_packet err peerPresent endpointPresent peer usedNewKey keypair now A B C len canPull1 ipVersion dsCe routedSame netifRxOk
    ∧ Act.incRxFrameErrors ∈ receive_data_packet err peerPresent endpointPresent peer usedNewKey keypair now A B C len canPull1 ipVersion dsCe routedSame netifRxOk := by
  have hg : ¬(err < 0 ∨ peerPresent = false ∨ endpointPresent = false) := by
    simp [hp, he]
    omega
  have hmid : receive_data_mid len canPull1 ipVersion dsCe routedSame netifRxOk
      = (if dsCe then [Act.ipEcnSetCe] else []) ++ routed_delivery false netifRxOk := by
    subst hpull
    subst hroute
    unfold receive_data_mid
    rcases hver with ⟨hl, hv⟩ | ⟨hl, hv⟩ <;> subst hv <;> simp [hlen, hl]
  have hker := keep_key_fresh_acts
    (if usedNewKey = true then ({ sent_lastminute_handshake := false } : Peer) else peer)
    keypair now A B C
  simp only [receive_data_packet]
  rw [if_neg hg, hmid]
  rcases hker with hf | ⟨hf, -⟩ <;> rw [hf] <;>
    cases usedNewKey <;> cases dsCe <;>
      simp [routed_delivery]

/-- Witness for C2 at a 20-byte IPv4 packet whose source routes to another
peer. -/
theorem receive_data_packet_spoofed_drop_witness :
    Act.netifRx ∉ receive_data_packet 0 true true ⟨false⟩ false none 0 0 0 0 20 true 4 false false true :=
  (receive_data_packet_spoofed_drop 0 true true ⟨false⟩ false none 0 0 0 0 20 true 4 false false true
    (le_refl 0) rfl rfl (by decide) rfl (Or.inl ⟨by decide, rfl⟩) rfl).1

/-- C10: when a data packet was decrypted with a newly installed keypair and
reaches a resolved peer, the receive path clears sent_lastminute_handshake
and flushes the queued outbound packets immediately after recording the
endpoint, before any keepalive or length classification, on every later
path. -/
theorem receive_data_packet_new_key_flush (err : Int) (peerPresent endpointPresent : Bool) (peer : Peer) (usedNewKey : Bool) (keypair : Option Keypair) (now A B C : Nat) (len : Nat) (canPull1 : Bool) (ipVersion : Nat) (dsCe routedSame netifRxOk : Bool)
    (hm : 0 ≤ err) (hp : peerPresent = true) (he : endpointPresent = true)
    (hk : usedNewKey = true) :
    ∃ rest, receive_data_packet err peerPresent endpointPresent peer usedNewKey keypair now A B C len canPull1 ipVersion dsCe routedSame netifRxOk
      = Act.setEndpoint :: Act.clearSentLastminute :: Act.sendQueue :: rest := by
  have hg : ¬(err < 0 ∨ peerPresent = false ∨ endpointPresent = false) := by
    simp [hp, he]
    omega
  subst hk
  simp only [receive_data_packet]
  rw [if_neg hg]
  exact ⟨_, rfl⟩

/-- Witness for C10 at a zero-length keepalive decrypted under a new key. -/
theorem receive_data_packet_new_key_flush_witness :
    ∃ rest, receive_data_packet 0 true true ⟨false⟩ true none 0 0 0 0 0 true 4 false true true
      = Act.setEndpoint :: Act.clearSentLastminute :: Act.sendQueue :: rest :=
  receive_data_packet_new_key_flush 0 true true ⟨false⟩ true none 0 0 0 0 0 true 4 false true true
    (le_refl 0) rfl rfl rfl

end WG
